import Mathlib

/-!
Verification development for the hfd model-artifact fetcher.

The repository's visible Python sources are thin CLI glue
(src/python/hfd/__init__.py and src/hfd-py/python/cli.py); the download
orchestration engine they call into (pattern matcher, manifest resolver,
download planner, transfer worker pool, cache layout manager, orchestrator)
is referenced but not present under src/.  Definitions for those components
are therefore modelled from the specification; definitions for the CLI entry
points are embedded from the Python sources directly.
-/

namespace Hfd

/-- Modelled from the spec: the token alphabet of a shell-glob pattern — the
any-sequence wildcard, the single-character wildcard, a character class
(optionally negated), an unterminated-class marker, and literal characters. -/
inductive GlobTok : Type
  | star : GlobTok
  | question : GlobTok
  | cls : Bool → List Char → GlobTok
  | unterminated : GlobTok
  | lit : Char → GlobTok
deriving DecidableEq

/-- Modelled from the spec: membership of a character in a character-class
body, supporting ranges written with a dash. -/
def charInClass (c : Char) : List Char → Bool
  | [] => false
  | a :: '-' :: b :: rest => (decide (a ≤ c) && decide (c ≤ b)) || charInClass c rest
  | a :: rest => (a == c) || charInClass c rest

/-- Modelled from the spec: tokenizer state — either scanning ordinary pattern
characters or inside a character class, accumulating its body. -/
inductive TokState : Type
  | normal : TokState
  | inClass (neg : Bool) (acc : List Char) : TokState

/-- Modelled from the spec: tokenizing a shell-glob pattern (star, question
mark, character classes, literals); a class that never closes marks the
pattern invalid. -/
def tokenizeAux : TokState → List Char → List GlobTok
  | TokState.normal, [] => []
  | TokState.normal, '*' :: rest => GlobTok.star :: tokenizeAux TokState.normal rest
  | TokState.normal, '?' :: rest => GlobTok.question :: tokenizeAux TokState.normal rest
  | TokState.normal, '[' :: '!' :: rest => tokenizeAux (TokState.inClass true []) rest
  | TokState.normal, '[' :: rest => tokenizeAux (TokState.inClass false []) rest
  | TokState.normal, c :: rest => GlobTok.lit c :: tokenizeAux TokState.normal rest
  | TokState.inClass _ _, [] => [GlobTok.unterminated]
  | TokState.inClass neg acc, ']' :: rest =>
      GlobTok.cls neg acc.reverse :: tokenizeAux TokState.normal rest
  | TokState.inClass neg acc, c :: rest => tokenizeAux (TokState.inClass neg (c :: acc)) rest

/-- Modelled from the spec: tokenize a whole pattern. -/
def tokenize (l : List Char) : List GlobTok :=
  tokenizeAux TokState.normal l

/-- Modelled from the spec: given a matcher for the rest of the pattern, try
it on every suffix of the string — this is what the any-sequence wildcard
does. -/
def tryDrops (f : List Char → Bool) : List Char → Bool
  | [] => f []
  | c :: cs => f (c :: cs) || tryDrops f cs

/-- Modelled from the spec: matching a tokenized glob pattern against the
characters of a path. -/
def matchToks : List GlobTok → List Char → Bool
  | [], s => s.isEmpty
  | GlobTok.star :: ts, s => tryDrops (matchToks ts) s
  | GlobTok.question :: ts, s =>
      match s with
      | [] => false
      | _ :: cs => matchToks ts cs
  | GlobTok.cls neg body :: ts, s =>
      match s with
      | [] => false
      | c :: cs => (charInClass c body != neg) && matchToks ts cs
  | GlobTok.unterminated :: _, _ => false
  | GlobTok.lit p :: ts, s =>
      match s with
      | [] => false
      | c :: cs => (p == c) && matchToks ts cs

/-- Modelled from the spec: shell-glob matching of one pattern against the
full relative path. -/
def globMatch (pat path : String) : Bool :=
  matchToks (tokenize pat.toList) path.toList

/-- Modelled from the spec: the Pattern Matcher contract (named `matches` in
the spec; that word is reserved in Lean).  A path is selected if (includes is
empty OR the path matches any include pattern) AND the path does not match
any exclude pattern. -/
def matchesPath (path : String) (includes excludes : List String) : Bool :=
  (includes.isEmpty || includes.any fun p => globMatch p path) &&
  !(excludes.any fun p => globMatch p path)

/-- Modelled from the spec: one entry of a repository file manifest — relative
path, size in bytes, expected content checksum (the spec's hex digest is
abstracted as a natural number), and revision tag. -/
structure FileManifestEntry : Type where
  relPath : String
  size : Nat
  checksum : Nat
  revision : String
deriving DecidableEq

/-- Modelled from the spec: the content checksum of a byte stream, abstracted
as a 64-bit rolling hash over the bytes. -/
def chk (bs : List Nat) : Nat :=
  bs.foldl (fun a b => (a * 131 + b) % 18446744073709551616) 5381

/-- Association-list lookup used to model keyed on-disk state; the most
recently written binding for a key wins. -/
def alookup {α : Type} [DecidableEq α] {β : Type} : List (α × β) → α → Option β
  | [], _ => none
  | (k, v) :: l, k2 => if k2 = k then some v else alookup l k2

/-- Remove every binding for a key from keyed on-disk state. -/
def aremove {α : Type} [DecidableEq α] {β : Type} (l : List (α × β)) (k : α) : List (α × β) :=
  l.filter fun kv => decide (kv.1 ≠ k)

/-- Modelled from the spec: the temp-file area of the cache directory, keyed
by absolute temp path, holding the bytes written so far. -/
abbrev Temps : Type := List (String × List Nat)

/-- Modelled from the spec: finalized cache contents, keyed by (repository
identifier, revision, relative path). -/
abbrev Cache : Type := List ((String × String × String) × List Nat)

/-- Modelled from the spec: a finalized on-disk artifact as seen through
`lookup` — its content together with the checksum computed from it. -/
structure CacheEntry : Type where
  content : List Nat
  checksum : Nat
deriving DecidableEq

/-- Modelled from the spec: the Cache Layout Manager's `lookup` — the
CacheEntry at (repo, revision, relative path), if present. -/
def lookup (c : Cache) (repo rev relP : String) : Option CacheEntry :=
  match alookup c (repo, rev, relP) with
  | some bs => some ⟨bs, chk bs⟩
  | none => none

/-- Modelled from the spec: cache-hit detection — a pre-existing candidate is
trusted only after checksum validation against the manifest's expected
checksum; a corrupted cached file is treated as absent. -/
def cacheHit (c : Cache) (repo : String) (e : FileManifestEntry) : Bool :=
  match lookup c repo e.revision e.relPath with
  | some ent => ent.checksum == e.checksum
  | none => false

/-- Modelled from the spec: the finalized cache layout
cache_root/repo_id/revision/relative_path. -/
def finalPath (root repo : String) (e : FileManifestEntry) : String :=
  root ++ "/" ++ repo ++ "/" ++ e.revision ++ "/" ++ e.relPath

/-- Modelled from the spec: the sibling transfer-in-progress path. -/
def tempPath (root repo : String) (e : FileManifestEntry) : String :=
  finalPath root repo e ++ ".part"

/-- Modelled from the spec: one planned download — the manifest entry, its
temp and final paths, and the resume offset. -/
structure DownloadPlanItem : Type where
  entry : FileManifestEntry
  tempPath : String
  finalPath : String
  resumeOffset : Nat
deriving DecidableEq

/-- Modelled from the spec: the error taxonomy of §7 plus the resolver's
manifest-integrity failure. -/
inductive ErrorKind : Type
  | validationError : ErrorKind
  | authenticationError : ErrorKind
  | notFoundError : ErrorKind
  | networkError : ErrorKind
  | integrityError : ErrorKind
  | cacheWriteError : ErrorKind
  | manifestIntegrityError : ErrorKind
deriving DecidableEq

/-- Modelled from the spec: the per-item transfer status. -/
inductive TransferStatus : Type
  | success : TransferStatus
  | failed (err : ErrorKind) : TransferStatus
  | skipped : TransferStatus
deriving DecidableEq

/-- Modelled from the spec: the outcome of one plan item. -/
structure TransferResult : Type where
  item : DownloadPlanItem
  status : TransferStatus
  bytesTransferred : Nat
deriving DecidableEq

/-- Modelled from the spec: build the plan item for a selected manifest
entry. -/
def mkPlanItem (root repo : String) (e : FileManifestEntry) : DownloadPlanItem :=
  ⟨e, tempPath root repo e, finalPath root repo e, 0⟩

/-- Modelled from the spec: the immediate Skipped result recorded for a
cache hit. -/
def mkSkipResult (root repo : String) (e : FileManifestEntry) : TransferResult :=
  ⟨mkPlanItem root repo e, TransferStatus.skipped, 0⟩

/-- Modelled from the spec: the Download Planner.  Applies the Pattern
Matcher to every manifest entry; selected entries with a valid CacheEntry at
their final path are recorded as immediate Skipped results, the rest become
plan items. -/
def plan (man : List FileManifestEntry) (includes excludes : List String)
    (root repo : String) (c : Cache) : List DownloadPlanItem × List TransferResult :=
  ((man.filter fun e =>
      matchesPath e.relPath includes excludes && !(cacheHit c repo e)).map (mkPlanItem root repo),
   (man.filter fun e =>
      matchesPath e.relPath includes excludes && cacheHit c repo e).map (mkSkipResult root repo))

/-- Modelled from the spec: the bytes a worker's attempt ends up with in the
temp file — the partial content already present, extended by a byte-range
fetch starting at its current length. -/
def completedOf (oracle : String → List Nat) (item : DownloadPlanItem) (temps : Temps) : List Nat :=
  let old := (alookup temps item.tempPath).getD []
  old ++ (oracle item.entry.relPath).drop old.length

/-- Modelled from the spec: one transfer attempt — resume (or start) the
byte-range transfer into the temp file; on completion compare the computed
checksum with the manifest's expected checksum.  A match promotes the
verified temp file atomically into the cache; a mismatch fails the item with
IntegrityError and deletes the temp file. -/
def runAttempt (oracle : String → List Nat) (repo : String) (item : DownloadPlanItem)
    (temps : Temps) (cache : Cache) : TransferStatus × Nat × Temps × Cache :=
  let old := (alookup temps item.tempPath).getD []
  let fetched := ((oracle item.entry.relPath).drop old.length).length
  if chk (completedOf oracle item temps) = item.entry.checksum then
    (TransferStatus.success, fetched, aremove temps item.tempPath,
     ((repo, item.entry.revision, item.entry.relPath), completedOf oracle item temps) :: cache)
  else
    (TransferStatus.failed ErrorKind.integrityError, fetched, aremove temps item.tempPath, cache)

/-- Modelled from the spec: one worker processing one item with a bounded
attempt count — retry on failure, and after exhausting attempts mark the
item Failed with the last error detail. -/
def runItem (oracle : String → List Nat) (repo : String) :
    Nat → DownloadPlanItem → Temps → Cache → TransferResult × Temps × Cache
  | 0, item, temps, cache =>
      (⟨item, TransferStatus.failed ErrorKind.integrityError, 0⟩, temps, cache)
  | 1, item, temps, cache =>
      let r := runAttempt oracle repo item temps cache
      (⟨item, r.1, r.2.1⟩, r.2.2.1, r.2.2.2)
  | n + 2, item, temps, cache =>
      let r := runAttempt oracle repo item temps cache
      match r.1 with
      | TransferStatus.failed _ => runItem oracle repo (n + 1) item r.2.2.1 r.2.2.2
      | st => (⟨item, st, r.2.1⟩, r.2.2.1, r.2.2.2)

/-- Modelled from the spec: the Transfer Worker Pool.  Every item is
processed independently; one item's failure never aborts sibling transfers
(completion order is unspecified and does not affect the aggregate, so the
pool is modelled by processing the plan in order). -/
def execute (oracle : String → List Nat) (repo : String) (attempts : Nat) :
    List DownloadPlanItem → Temps → Cache → List TransferResult × Temps × Cache
  | [], temps, cache => ([], temps, cache)
  | item :: rest, temps, cache =>
      let r := runItem oracle repo attempts item temps cache
      let rs := execute oracle repo attempts rest r.2.1 r.2.2
      (r.1 :: rs.1, rs.2.1, rs.2.2)

/-- Modelled from the spec: what the network knows about a repository — it
may be unknown, require authentication, or be public, and in the latter two
cases it serves a raw file listing. -/
inductive RemoteRepo : Type
  | notFound : RemoteRepo
  | authRequired (files : List FileManifestEntry) : RemoteRepo
  | publicRepo (files : List FileManifestEntry) : RemoteRepo

/-- Modelled from the spec: the raw manifest the resolver manages to fetch —
none when the repository is unknown or authentication fails before any
listing is served. -/
def remoteFiles : RemoteRepo → Option String → Option (List FileManifestEntry)
  | RemoteRepo.notFound, _ => none
  | RemoteRepo.authRequired _, none => none
  | RemoteRepo.authRequired fs, some _ => some fs
  | RemoteRepo.publicRepo fs, _ => some fs

/-- Modelled from the spec: the resolver's fail-fast uniqueness check —
a fetched manifest containing duplicate relative paths is rejected with
ManifestIntegrityError. -/
def checkManifest (fs : List FileManifestEntry) :
    Except ErrorKind (List FileManifestEntry) :=
  if (fs.map FileManifestEntry.relPath).Nodup then Except.ok fs
  else Except.error ErrorKind.manifestIntegrityError

/-- Modelled from the spec: the Manifest Resolver.  Unknown repositories fail
with NotFoundError; a private repository without a token fails with
AuthenticationError; a fetched manifest is subject to the uniqueness
check. -/
def resolve (remote : RemoteRepo) (token : Option String) :
    Except ErrorKind (List FileManifestEntry) :=
  match remote, token with
  | RemoteRepo.notFound, _ => Except.error ErrorKind.notFoundError
  | RemoteRepo.authRequired _, none => Except.error ErrorKind.authenticationError
  | RemoteRepo.authRequired fs, some _ => checkManifest fs
  | RemoteRepo.publicRepo fs, _ => checkManifest fs

/-- Modelled from the spec: the Orchestrator's overall status, with the
distinct no-files-matched outcome. -/
inductive OverallStatus : Type
  | allSucceeded : OverallStatus
  | partialFailure (failed : List (String × ErrorKind)) : OverallStatus
  | totalFailure (failed : List (String × ErrorKind)) : OverallStatus
  | noFilesMatched : OverallStatus
deriving DecidableEq

/-- Modelled from the spec: the failed relative paths with their error kinds,
extracted from the per-item outcomes. -/
def failedOf (rs : List TransferResult) : List (String × ErrorKind) :=
  rs.filterMap fun r =>
    match r.status with
    | TransferStatus.failed e => some (r.item.entry.relPath, e)
    | _ => none

/-- Modelled from the spec: the Orchestrator's aggregation of per-item
outcomes into one overall status. -/
def aggregate (rs : List TransferResult) : OverallStatus :=
  if rs.isEmpty then OverallStatus.noFilesMatched
  else if (failedOf rs).isEmpty then OverallStatus.allSucceeded
  else if (failedOf rs).length = rs.length then OverallStatus.totalFailure (failedOf rs)
  else OverallStatus.partialFailure (failedOf rs)

/-- Modelled from the spec: the request the CLI collaborator hands to the
Orchestrator. -/
structure Request : Type where
  repoId : String
  cacheRoot : String
  includes : List String
  excludes : List String
  token : Option String

/-- Modelled from the spec: the number of network file transfers a run
performed — every non-skipped outcome involved a transfer, a Skipped outcome
involved none. -/
def networkTransfers (rs : List TransferResult) : Nat :=
  (rs.filter fun r =>
    match r.status with
    | TransferStatus.skipped => false
    | _ => true).length

/-- Modelled from the spec: the Orchestrator's pipeline — Resolver → Planner
→ Worker Pool → aggregation; resolver failures abort the whole invocation. -/
def runPipeline (remote : RemoteRepo) (oracle : String → List Nat) (attempts : Nat)
    (req : Request) (temps : Temps) (cache : Cache) :
    Except ErrorKind (List TransferResult × OverallStatus) × Temps × Cache :=
  match resolve remote req.token with
  | Except.error e => (Except.error e, temps, cache)
  | Except.ok man =>
    let pr := plan man req.includes req.excludes req.cacheRoot req.repoId cache
    let er := execute oracle req.repoId attempts pr.1 temps cache
    (Except.ok (pr.2 ++ er.1, aggregate (pr.2 ++ er.1)), er.2.1, er.2.2)

/-- Modelled from the spec: the on-disk state an observer of the cache
directory can see — temp files (keyed by temp path) and finalized files
(keyed by final path). -/
structure FsState : Type where
  temps : List (String × List Nat)
  finals : List (String × List Nat)

/-- Modelled from the spec: the atomic filesystem transitions the engine
performs for a fixed manifest.  Workers stream bytes only into temp files;
promotion is a single atomic rename-style transition that moves a
checksum-verified temp file to its final path; temp files may be deleted.
No transition writes a final path except verified promotion. -/
inductive EngineStep (man : List FileManifestEntry) : FsState → FsState → Prop
  | writeTemp (s : FsState) (e : FileManifestEntry) (bytes : List Nat) (he : e ∈ man) :
      EngineStep man s
        ⟨(e.relPath ++ ".part",
          ((alookup s.temps (e.relPath ++ ".part")).getD []) ++ bytes) :: s.temps, s.finals⟩
  | promote (s : FsState) (e : FileManifestEntry) (content : List Nat) (he : e ∈ man)
      (hc : alookup s.temps (e.relPath ++ ".part") = some content)
      (hv : chk content = e.checksum) :
      EngineStep man s
        ⟨aremove s.temps (e.relPath ++ ".part"), (e.relPath, content) :: s.finals⟩
  | dropTemp (s : FsState) (p : String) :
      EngineStep man s ⟨aremove s.temps p, s.finals⟩

/-- Modelled from the spec: the states reachable from an empty cache
directory by any sequence of engine transitions. -/
inductive ReachableFs (man : List FileManifestEntry) : FsState → Prop
  | init : ReachableFs man ⟨[], []⟩
  | step (s s2 : FsState) : ReachableFs man s → EngineStep man s s2 → ReachableFs man s2

/-- Modelled from the spec: the CacheEntry invariant — every finalized path
either does not exist or holds the complete content of a manifest entry,
valid against that entry's expected checksum. -/
def finalsIntact (man : List FileManifestEntry) (s : FsState) : Prop :=
  ∀ p c, alookup s.finals p = some c →
    ∃ e, e ∈ man ∧ e.relPath = p ∧ chk c = e.checksum

/-- Output streams of a CLI process: lines printed to standard output and to
standard error. -/
structure Streams : Type where
  out : List String
  err : List String
deriving DecidableEq

/-- Embedded from src/python/hfd/__init__.py, `main` (lines 15-27): the call
`_download_model(...)` either returns a result string or raises; `main`
prints the result and returns 0, or prints the message on stderr and
returns 1.  Argument parsing is CLI glue and out of scope per the spec; the
download call's outcome is the function's input. -/
def initMain (download : Except String String) : Nat × Streams :=
  match download with
  | Except.ok result => (0, ⟨[result], []⟩)
  | Except.error e => (1, ⟨[], ["Error: " ++ e]⟩)

/-- Embedded from src/hfd-py/python/cli.py, `main`: constructs a downloader
and calls `download()` with no exception handling, so a raised error
propagates out of `main`. -/
def cliMain (download : Except String Unit) : Except String (Nat × Streams) :=
  match download with
  | Except.ok _ => Except.ok (0, ⟨[], []⟩)
  | Except.error e => Except.error e

/-- Embedded from the source layout: the names the package `hfd`
(src/python/hfd/) can provide to the statement
`from . import download_model` on line 3 of its `__init__.py` — the
package directory holds no submodule besides `__init__.py`, and the only
names bound before line 3 are the imports `sys` and `argparse`. -/
def hfdPackageProvides : List String := ["sys", "argparse"]

/-- Embedded from the sources: every module-level name bound anywhere in the
three source files (imports, defs, classes, and the assignments under the
main guard of src/test.py). -/
def sourceDefinedNames : List String :=
  ["sys", "argparse", "main", "torch", "GPT2LMHeadModel", "GPT2Tokenizer",
   "CustomerServiceGPT2", "chatbot", "task"]

/-- Outcome of importing and running a Python entry module: the imports run
at module level and may fail before any code of `main` runs. -/
inductive ModuleRun (α : Type) : Type
  | importFailure : ModuleRun α
  | ran (a : α) : ModuleRun α
deriving DecidableEq

/-- Embedded from src/python/hfd/__init__.py: running the module executes
line 3, `from . import download_model as _download_model`, which succeeds
only if the package provides that name; only then can `main` run. -/
def runInitModule (download : Except String String) : ModuleRun (Nat × Streams) :=
  if hfdPackageProvides.contains "download_model" then
    ModuleRun.ran (initMain download)
  else ModuleRun.importFailure

/-- Embedded from src/hfd-py/python/cli.py: line 2 is
`from hfd import HFDownloader` — importing `hfd` first executes its
`__init__.py` (whose own import must succeed), and then the name
`HFDownloader` must exist among the module's bindings; only then can this
`main` run. -/
def runCliModule (download : Except String Unit) :
    ModuleRun (Except String (Nat × Streams)) :=
  if hfdPackageProvides.contains "download_model" then
    if ("sys" :: "argparse" :: "_download_model" :: "main" :: []).contains "HFDownloader" then
      ModuleRun.ran (cliMain download)
    else ModuleRun.importFailure
  else ModuleRun.importFailure

/-- The cache contents after the worker pool promotes every item of a plan,
fetching each item's content from the network oracle. -/
def promoteAll (repo : String) (oracle : String → List Nat) :
    List DownloadPlanItem → Cache → Cache
  | [], cache => cache
  | i :: rest, cache =>
      promoteAll repo oracle rest
        (((repo, i.entry.revision, i.entry.relPath), oracle i.entry.relPath) :: cache)

/-- Manifest of the spec's planning scenario. -/
def c2Manifest : List FileManifestEntry :=
  [⟨"config.json", 4, 0, "main"⟩, ⟨"model.bin", 8, 0, "main"⟩,
   ⟨"model.sharded.bin", 8, 0, "main"⟩, ⟨"readme.md", 2, 0, "main"⟩]

/-- Manifest of the spec's partial-failure scenario: the second entry's
expected checksum never matches what the network serves. -/
def c7Manifest : List FileManifestEntry :=
  [⟨"a.bin", 1, chk [1], "main"⟩, ⟨"b.bin", 1, chk [9], "main"⟩,
   ⟨"c.bin", 1, chk [3], "main"⟩]

/-- Network content for the partial-failure scenario. -/
def c7Oracle : String → List Nat := fun p =>
  if p = "a.bin" then [1] else if p = "b.bin" then [2] else [3]

/-- The three-item plan of the partial-failure scenario. -/
def c7Plan : List DownloadPlanItem :=
  (plan c7Manifest [] [] "/cache" "org/model" []).1

/-- Single-file manifest entry used to exercise the idempotence theorem. -/
def c5Entry : FileManifestEntry := ⟨"f.bin", 1, chk [5], "main"⟩

/-- Network content for the idempotence scenario. -/
def c5Oracle : String → List Nat := fun _ => [5]

/-- Request of the idempotence scenario. -/
def c5Request : Request := ⟨"org/m", "/c", [], [], none⟩

/-- Remote repository of the idempotence scenario. -/
def c5Remote : RemoteRepo := RemoteRepo.publicRepo [c5Entry]

/-- Manifest entry used to exercise the cache invariant. -/
def c3Entry : FileManifestEntry := ⟨"w.bin", 1, chk [7], "r1"⟩

/-- A manifest containing two entries with the same relative path. -/
def c4Dup : List FileManifestEntry :=
  [⟨"x.bin", 1, 0, "main"⟩, ⟨"x.bin", 2, 0, "main"⟩]

/-- Plan item used to exercise the promote-then-lookup round trip. -/
def c6Item : DownloadPlanItem := mkPlanItem "/c" "org/m" ⟨"h.bin", 1, chk [4], "main"⟩

/-- Network content for the round-trip scenario. -/
def c6Oracle : String → List Nat := fun _ => [4]

/-- Plan item used to exercise the checksum-mismatch cleanup. -/
def c8Item : DownloadPlanItem := mkPlanItem "/c" "org/m" ⟨"g.bin", 1, chk [1], "main"⟩

/-- Network content for the checksum-mismatch scenario: never matches the
expected checksum of the item above. -/
def c8Oracle : String → List Nat := fun _ => [2]

/-- A stale partial temp file for the checksum-mismatch scenario. -/
def c8Temps : Temps := [(c8Item.tempPath, [9])]

example : globMatch "*.json" "config.json" = true := by decide
example : globMatch "*.bin" "config.json" = false := by decide
example : globMatch "*sharded*" "model.sharded.bin" = true := by decide
example : globMatch "*sharded*" "model.bin" = false := by decide
example : globMatch "model.?in" "model.bin" = true := by decide
example : globMatch "[a-c]x" "bx" = true := by decide
example : globMatch "[!a-c]x" "bx" = false := by decide
example : matchesPath "readme.md" ["*.bin", "*.json"] ["*sharded*"] = false := by decide

/-- Claim C1: `matches(X, includes, excludes)` is true if and only if
(includes is empty or X matches at least one include pattern) and X matches
no exclude pattern; in particular `matches(X, [], [])` is true for every X,
and whenever X matches any exclude pattern the result is false regardless of
the includes. -/
theorem hfd_C1 (X : String) (includes excludes : List String) :
    (matchesPath X includes excludes = true ↔
      ((includes = [] ∨ ∃ p, p ∈ includes ∧ globMatch p X = true) ∧
       ∀ p, p ∈ excludes → globMatch p X = false)) ∧
    matchesPath X [] [] = true ∧
    (∀ p, p ∈ excludes → globMatch p X = true →
      matchesPath X includes excludes = false) := by
  refine ⟨?_, rfl, ?_⟩
  · simp only [matchesPath, Bool.and_eq_true, Bool.or_eq_true, Bool.not_eq_true',
      List.isEmpty_iff, List.any_eq_true, List.any_eq_false]
    constructor
    · rintro ⟨h1, h2⟩
      exact ⟨h1.imp id (fun ⟨p, hp, hm⟩ => ⟨p, hp, hm⟩),
        fun p hp => Bool.not_eq_true _ ▸ Bool.eq_false_iff.mpr (h2 p hp)⟩
    · rintro ⟨h1, h2⟩
      exact ⟨h1.imp id (fun ⟨p, hp, hm⟩ => ⟨p, hp, hm⟩),
        fun p hp => by simp [h2 p hp]⟩
  · intro p hp hm
    have h : excludes.any (fun q => globMatch q X) = true :=
      List.any_eq_true.mpr ⟨p, hp, hm⟩
    simp [matchesPath, h]

/-- Claim C1 witness: the characterization applied at a concrete path and
concrete pattern lists. -/
theorem hfd_C1_witness : matchesPath "model.bin" ["*.bin"] ["*.md"] = true :=
  (hfd_C1 "model.bin" ["*.bin"] ["*.md"]).1.mpr
    ⟨Or.inr ⟨"*.bin", by decide, by decide⟩, by decide⟩

/-- Claim C2: for includes `*.bin`, `*.json` and excludes `*sharded*` applied
to the manifest config.json, model.bin, model.sharded.bin, readme.md, the
Download Planner's plan selects exactly config.json and model.bin. -/
theorem hfd_C2 :
    (plan c2Manifest ["*.bin", "*.json"] ["*sharded*"] "/cache" "org/model" []).1.map
        (fun i => i.entry.relPath) = ["config.json", "model.bin"] ∧
    (plan c2Manifest ["*.bin", "*.json"] ["*sharded*"] "/cache" "org/model" []).2 = [] := by
  decide

theorem alookup_cons {α : Type} [DecidableEq α] {β : Type} (k : α) (v : β)
    (l : List (α × β)) (k2 : α) :
    alookup ((k, v) :: l) k2 = if k2 = k then some v else alookup l k2 := rfl

/-- Claim C3: in every state reachable by any sequence of engine operations,
every finalized cache path is never partially written — it either does not
exist or holds the complete, checksum-valid content of a manifest entry;
promotion is a single atomic transition, so an observer sees only the absent
old state or the fully written new state. -/
theorem hfd_C3 (man : List FileManifestEntry) (s : FsState)
    (h : ReachableFs man s) : finalsIntact man s := by
  induction h with
  | init =>
    intro p c hc
    simp [alookup] at hc
  | step s s2 hr hstep ih =>
    cases hstep with
    | writeTemp e bytes he => exact ih
    | dropTemp p => exact ih
    | promote e content he hc hv =>
      intro p c hpc
      rw [alookup_cons] at hpc
      by_cases hp : p = e.relPath
      · rw [if_pos hp] at hpc
        cases hpc
        exact ⟨e, he, hp.symm, hv⟩
      · rw [if_neg hp] at hpc
        exact ih p c hpc

/-- Claim C3 witness: the invariant holds in the concrete state obtained
from the empty cache by streaming one file into its temp path and promoting
the verified result. -/
theorem hfd_C3_witness :
    finalsIntact [c3Entry] ⟨[], [(c3Entry.relPath, [7])]⟩ :=
  hfd_C3 [c3Entry] _
    (ReachableFs.step ⟨[(c3Entry.relPath ++ ".part", [7])], []⟩
      ⟨[], [(c3Entry.relPath, [7])]⟩
      (ReachableFs.step ⟨[], []⟩ ⟨[(c3Entry.relPath ++ ".part", [7])], []⟩
        ReachableFs.init
        (EngineStep.writeTemp ⟨[], []⟩ c3Entry [7] (by decide)))
      (EngineStep.promote ⟨[(c3Entry.relPath ++ ".part", [7])], []⟩ c3Entry [7]
        (by decide) (by decide) (by decide)))

theorem checkManifest_dup (fs : List FileManifestEntry)
    (h : ¬ (fs.map FileManifestEntry.relPath).Nodup) :
    checkManifest fs = Except.error ErrorKind.manifestIntegrityError := by
  simp [checkManifest, h]

theorem checkManifest_ok (fs m : List FileManifestEntry)
    (h : checkManifest fs = Except.ok m) :
    (m.map FileManifestEntry.relPath).Nodup := by
  by_cases hn : (fs.map FileManifestEntry.relPath).Nodup
  · unfold checkManifest at h
    rw [if_pos hn] at h
    cases h
    exact hn
  · unfold checkManifest at h
    rw [if_neg hn] at h
    cases h

/-- Claim C4: `resolve` fails with ManifestIntegrityError whenever the
fetched manifest contains two entries with the same relative path, and every
manifest it returns has pairwise-unique relative paths. -/
theorem hfd_C4 (remote : RemoteRepo) (token : Option String) :
    (∀ fs, remoteFiles remote token = some fs →
      ¬ (fs.map FileManifestEntry.relPath).Nodup →
      resolve remote token = Except.error ErrorKind.manifestIntegrityError) ∧
    (∀ m, resolve remote token = Except.ok m →
      (m.map FileManifestEntry.relPath).Nodup) := by
  cases remote with
  | notFound =>
    constructor
    · intro fs h
      simp [remoteFiles] at h
    · intro m h
      simp [resolve] at h
  | authRequired fs =>
    cases token with
    | none =>
      constructor
      · intro fs2 h
        simp [remoteFiles] at h
      · intro m h
        simp [resolve] at h
    | some t =>
      constructor
      · intro fs2 h hdup
        have : fs2 = fs := by
          simpa [remoteFiles] using h.symm
        subst this
        simpa [resolve] using checkManifest_dup fs2 hdup
      · intro m h
        exact checkManifest_ok fs m (by simpa [resolve] using h)
  | publicRepo fs =>
    constructor
    · intro fs2 h hdup
      have : fs2 = fs := by
        simpa [remoteFiles] using h.symm
      subst this
      simpa [resolve] using checkManifest_dup fs2 hdup
    · intro m h
      exact checkManifest_ok fs m (by simpa [resolve] using h)

/-- Claim C4 witness: a concrete manifest with a duplicated relative path is
rejected with ManifestIntegrityError. -/
theorem hfd_C4_witness :
    resolve (RemoteRepo.publicRepo c4Dup) none =
      Except.error ErrorKind.manifestIntegrityError :=
  (hfd_C4 (RemoteRepo.publicRepo c4Dup) none).1 c4Dup rfl (by decide)

theorem alookup_aremove_self {α : Type} [DecidableEq α] {β : Type}
    (l : List (α × β)) (k : α) : alookup (aremove l k) k = none := by
  induction l with
  | nil => rfl
  | cons kv l ih =>
    obtain ⟨k1, v⟩ := kv
    by_cases h : k1 = k
    · simpa [aremove, h] using ih
    · have h2 : ¬ k = k1 := fun h2 => h h2.symm
      simpa [aremove, alookup, h, h2] using ih

theorem runAttempt_pos (oracle : String → List Nat) (repo : String)
    (item : DownloadPlanItem) (temps : Temps) (cache : Cache)
    (h : chk (completedOf oracle item temps) = item.entry.checksum) :
    runAttempt oracle repo item temps cache =
      (TransferStatus.success,
       ((oracle item.entry.relPath).drop ((alookup temps item.tempPath).getD []).length).length,
       aremove temps item.tempPath,
       ((repo, item.entry.revision, item.entry.relPath),
         completedOf oracle item temps) :: cache) := by
  simp [runAttempt, h]

theorem runAttempt_neg (oracle : String → List Nat) (repo : String)
    (item : DownloadPlanItem) (temps : Temps) (cache : Cache)
    (h : ¬ chk (completedOf oracle item temps) = item.entry.checksum) :
    runAttempt oracle repo item temps cache =
      (TransferStatus.failed ErrorKind.integrityError,
       ((oracle item.entry.relPath).drop ((alookup temps item.tempPath).getD []).length).length,
       aremove temps item.tempPath, cache) := by
  simp [runAttempt, h]

/-- Claim C6: for every item whose transfer is successfully promoted,
`lookup` immediately afterward returns a CacheEntry whose checksum equals
the manifest entry's expected checksum. -/
theorem hfd_C6 (oracle : String → List Nat) (repo : String) (attempts : Nat)
    (item : DownloadPlanItem) (temps : Temps) (cache : Cache)
    (h : (runItem oracle repo attempts item temps cache).1.status = TransferStatus.success) :
    (lookup (runItem oracle repo attempts item temps cache).2.2 repo
        item.entry.revision item.entry.relPath).map CacheEntry.checksum =
      some item.entry.checksum := by
  induction attempts generalizing temps cache with
  | zero => simp [runItem] at h
  | succ n ih =>
    cases n with
    | zero =>
      by_cases hc : chk (completedOf oracle item temps) = item.entry.checksum
      · simp only [runItem, runAttempt_pos oracle repo item temps cache hc]
        simp [lookup, alookup, hc]
      · simp only [runItem, runAttempt_neg oracle repo item temps cache hc] at h
        cases h
    | succ m =>
      by_cases hc : chk (completedOf oracle item temps) = item.entry.checksum
      · simp only [runItem, runAttempt_pos oracle repo item temps cache hc]
        simp [lookup, alookup, hc]
      · simp only [runItem, runAttempt_neg oracle repo item temps cache hc] at h ⊢
        exact ih _ _ h

/-- Claim C6 witness: the round trip at a concrete item, network content and
empty initial cache. -/
theorem hfd_C6_witness :
    (lookup (runItem c6Oracle "org/m" 3 c6Item [] []).2.2 "org/m"
        c6Item.entry.revision c6Item.entry.relPath).map CacheEntry.checksum =
      some c6Item.entry.checksum :=
  hfd_C6 c6Oracle "org/m" 3 c6Item [] [] (by decide)

/-- Claim C7: for a plan of three items where item 2's checksum never
matches, `execute` produces Success for items 1 and 3 and Failed for item 2,
and the Orchestrator aggregates the run as PartialFailure listing exactly
item 2's relative path and error kind. -/
theorem hfd_C7 :
    ((execute c7Oracle "org/model" 3 c7Plan [] []).1.map TransferResult.status =
      [TransferStatus.success, TransferStatus.failed ErrorKind.integrityError,
       TransferStatus.success]) ∧
    aggregate (execute c7Oracle "org/model" 3 c7Plan [] []).1 =
      OverallStatus.partialFailure [("b.bin", ErrorKind.integrityError)] := by
  decide

/-- Claim C8: when the computed checksum of a completed temp file differs
from the manifest's expected checksum, the attempt fails the item with
IntegrityError and deletes the temp file, so no partial file survives the
failure and the next attempt starts a full re-download from offset 0. -/
theorem hfd_C8 (oracle : String → List Nat) (repo : String)
    (item : DownloadPlanItem) (temps : Temps) (cache : Cache)
    (h : chk (completedOf oracle item temps) ≠ item.entry.checksum) :
    runAttempt oracle repo item temps cache =
      (TransferStatus.failed ErrorKind.integrityError,
       ((oracle item.entry.relPath).drop ((alookup temps item.tempPath).getD []).length).length,
       aremove temps item.tempPath, cache) ∧
    alookup (aremove temps item.tempPath) item.tempPath = none ∧
    completedOf oracle item (aremove temps item.tempPath) = oracle item.entry.relPath := by
  refine ⟨runAttempt_neg oracle repo item temps cache h, alookup_aremove_self temps item.tempPath, ?_⟩
  simp [completedOf, alookup_aremove_self]

/-- Claim C8 witness: the cleanup at a concrete item with a stale partial
temp file whose completion cannot match the expected checksum. -/
theorem hfd_C8_witness :
    runAttempt c8Oracle "org/m" c8Item c8Temps [] =
      (TransferStatus.failed ErrorKind.integrityError,
       ((c8Oracle c8Item.entry.relPath).drop
         ((alookup c8Temps c8Item.tempPath).getD []).length).length,
       aremove c8Temps c8Item.tempPath, []) ∧
    alookup (aremove c8Temps c8Item.tempPath) c8Item.tempPath = none ∧
    completedOf c8Oracle c8Item (aremove c8Temps c8Item.tempPath) =
      c8Oracle c8Item.entry.relPath :=
  hfd_C8 c8Oracle "org/m" c8Item c8Temps [] (by decide)

/-- Claim C9: for every invocation of the engine entry point `main` of
src/python/hfd/__init__.py — if the download call raises, `main` prints a
human-readable message on the error output stream and returns the non-zero
exit code 1; if it does not raise, it prints the result and returns 0. -/
theorem hfd_C9 (download : Except String String) :
    (∀ e, download = Except.error e →
      initMain download = (1, ⟨[], ["Error: " ++ e]⟩) ∧ (initMain download).1 ≠ 0) ∧
    (∀ r, download = Except.ok r → initMain download = (0, ⟨[r], []⟩)) := by
  constructor
  · intro e he
    subst he
    exact ⟨rfl, Nat.one_ne_zero⟩
  · intro r hr
    subst hr
    rfl

/-- Claim C9 witness: the two branches of `main` at concrete download
outcomes. -/
theorem hfd_C9_witness :
    initMain (Except.error "boom") = (1, ⟨[], ["Error: " ++ "boom"]⟩) ∧
    initMain (Except.ok "/cache/org") = (0, ⟨["/cache/org"], []⟩) :=
  ⟨((hfd_C9 (Except.error "boom")).1 "boom" rfl).1,
   (hfd_C9 (Except.ok "/cache/org")).2 "/cache/org" rfl⟩

/-- Claim C10: the names download_model and HFDownloader that the two entry
modules import at top level are defined nowhere in the source, so both
module imports fail and no run of either `main` can reach the download
call. -/
theorem hfd_C10 :
    sourceDefinedNames.contains "download_model" = false ∧
    sourceDefinedNames.contains "HFDownloader" = false ∧
    (∀ d, runInitModule d = ModuleRun.importFailure) ∧
    (∀ d, runCliModule d = ModuleRun.importFailure) := by
  refine ⟨by decide, by decide, ?_, ?_⟩ <;> intro d <;> rfl

theorem resolve_ok_nodup (remote : RemoteRepo) (token : Option String)
    (m : List FileManifestEntry) (h : resolve remote token = Except.ok m) :
    (m.map FileManifestEntry.relPath).Nodup := by
  cases remote with
  | notFound => simp [resolve] at h
  | authRequired fs =>
    cases token with
    | none => simp [resolve] at h
    | some t => exact checkManifest_ok fs m (by simpa [resolve] using h)
  | publicRepo fs => exact checkManifest_ok fs m (by simpa [resolve] using h)

theorem runItem_pos (oracle : String → List Nat) (repo : String) (n : Nat)
    (item : DownloadPlanItem) (temps : Temps) (cache : Cache)
    (h : chk (completedOf oracle item temps) = item.entry.checksum) :
    runItem oracle repo (n + 1) item temps cache =
      (⟨item, TransferStatus.success,
        ((oracle item.entry.relPath).drop ((alookup temps item.tempPath).getD []).length).length⟩,
       aremove temps item.tempPath,
       ((repo, item.entry.revision, item.entry.relPath),
         completedOf oracle item temps) :: cache) := by
  cases n with
  | zero => simp [runItem, runAttempt_pos oracle repo item temps cache h]
  | succ m => simp [runItem, runAttempt_pos oracle repo item temps cache h]

theorem completedOf_empty (oracle : String → List Nat) (item : DownloadPlanItem) :
    completedOf oracle item [] = oracle item.entry.relPath := by
  simp [completedOf, alookup]

theorem execute_success (oracle : String → List Nat) (repo : String) (n : Nat)
    (items : List DownloadPlanItem) (cache : Cache)
    (hhon : ∀ i ∈ items, chk (oracle i.entry.relPath) = i.entry.checksum) :
    execute oracle repo (n + 1) items [] cache =
      (items.map fun i =>
        (⟨i, TransferStatus.success, (oracle i.entry.relPath).length⟩ : TransferResult),
       [], promoteAll repo oracle items cache) := by
  induction items generalizing cache with
  | nil => rfl
  | cons i rest ih =>
    have hi : chk (completedOf oracle i []) = i.entry.checksum := by
      rw [completedOf_empty]
      exact hhon i (List.mem_cons_self i rest)
    have hrun := runItem_pos oracle repo n i [] cache hi
    rw [completedOf_empty] at hrun
    simp only [execute, hrun, alookup, Option.getD_none, List.length_nil, List.drop_zero,
      aremove, List.filter_nil]
    rw [ih _ (fun j hj => hhon j (List.mem_cons_of_mem i hj))]
    simp [promoteAll]

theorem promoteAll_lookup_other (repo : String) (oracle : String → List Nat)
    (items : List DownloadPlanItem) (cache : Cache) (rev p : String)
    (hne : ∀ i ∈ items, i.entry.relPath ≠ p) :
    alookup (promoteAll repo oracle items cache) (repo, rev, p) =
      alookup cache (repo, rev, p) := by
  induction items generalizing cache with
  | nil => rfl
  | cons i rest ih =>
    rw [promoteAll, ih _ (fun j hj => hne j (List.mem_cons_of_mem i hj))]
    rw [alookup_cons, if_neg]
    intro hkey
    have : p = i.entry.relPath := congrArg (fun q => q.2.2) hkey
    exact hne i (List.mem_cons_self i rest) this.symm

theorem promoteAll_lookup_self (repo : String) (oracle : String → List Nat)
    (items : List DownloadPlanItem) (cache : Cache) (i : DownloadPlanItem)
    (hi : i ∈ items) (hnd : (items.map fun j => j.entry.relPath).Nodup) :
    alookup (promoteAll repo oracle items cache)
        (repo, i.entry.revision, i.entry.relPath) = some (oracle i.entry.relPath) := by
  induction items generalizing cache with
  | nil => cases hi
  | cons j rest ih =>
    rw [List.map_cons, List.nodup_cons] at hnd
    rcases List.mem_cons.mp hi with h | h
    · subst h
      rw [promoteAll, promoteAll_lookup_other]
      · rw [alookup_cons, if_pos rfl]
      · intro k hk he
        exact hnd.1 (he ▸ List.mem_map_of_mem (fun j => j.entry.relPath) hk)
    · rw [promoteAll]
      exact ih _ h hnd.2

theorem cacheHit_congr (c1 c0 : Cache) (repo : String) (e : FileManifestEntry)
    (h : alookup c1 (repo, e.revision, e.relPath) = alookup c0 (repo, e.revision, e.relPath)) :
    cacheHit c1 repo e = cacheHit c0 repo e := by
  simp [cacheHit, lookup, h]

theorem runPipeline_fresh (remote : RemoteRepo) (oracle : String → List Nat) (n : Nat)
    (req : Request) (man : List FileManifestEntry) (c0 : Cache)
    (hres : resolve remote req.token = Except.ok man)
    (hhon : ∀ e ∈ man, chk (oracle e.relPath) = e.checksum) :
    (runPipeline remote oracle (n + 1) req [] c0).2.1 = [] ∧
    (runPipeline remote oracle (n + 1) req [] c0).2.2 =
      promoteAll req.repoId oracle
        (plan man req.includes req.excludes req.cacheRoot req.repoId c0).1 c0 := by
  have hhon2 : ∀ i ∈ (plan man req.includes req.excludes req.cacheRoot req.repoId c0).1,
      chk (oracle i.entry.relPath) = i.entry.checksum := by
    intro i hi
    rcases List.mem_map.mp hi with ⟨e, he, rfl⟩
    exact hhon e (List.mem_filter.mp he).1
  simp only [runPipeline, hres]
  rw [execute_success oracle req.repoId n _ c0 hhon2]
  exact ⟨rfl, rfl⟩

theorem planned_nodup (man : List FileManifestEntry) (includes excludes : List String)
    (root repo : String) (c : Cache)
    (hnd : (man.map FileManifestEntry.relPath).Nodup) :
    ((plan man includes excludes root repo c).1.map fun j => j.entry.relPath).Nodup := by
  simp only [plan, List.map_map]
  exact ((List.filter_sublist man).map _).nodup hnd

theorem plan_after_promote (oracle : String → List Nat) (man : List FileManifestEntry)
    (includes excludes : List String) (root repo : String) (c0 : Cache)
    (hnd : (man.map FileManifestEntry.relPath).Nodup)
    (hhon : ∀ e ∈ man, chk (oracle e.relPath) = e.checksum) :
    ∀ e ∈ man, matchesPath e.relPath includes excludes = true →
      cacheHit (promoteAll repo oracle (plan man includes excludes root repo c0).1 c0)
        repo e = true := by
  intro e he hm
  by_cases h0 : cacheHit c0 repo e = true
  · have hne : ∀ i ∈ (plan man includes excludes root repo c0).1,
        i.entry.relPath ≠ e.relPath := by
      intro i hi heq
      rcases List.mem_map.mp hi with ⟨e2, he2, rfl⟩
      rcases List.mem_filter.mp he2 with ⟨he2m, hcond⟩
      have he2e : e2 = e := List.inj_on_of_nodup_map hnd he2m he heq
      subst he2e
      rw [Bool.and_eq_true, Bool.not_eq_true'] at hcond
      rw [h0] at hcond
      cases hcond.2
    rw [cacheHit_congr _ c0 repo e
      (promoteAll_lookup_other repo oracle _ c0 e.revision e.relPath hne)]
    exact h0
  · have h0f : cacheHit c0 repo e = false := Bool.eq_false_iff.mpr h0
    have hi : mkPlanItem root repo e ∈ (plan man includes excludes root repo c0).1 :=
      List.mem_map_of_mem _ (List.mem_filter.mpr ⟨he, by rw [hm, h0f]; rfl⟩)
    have hl2 : alookup (promoteAll repo oracle (plan man includes excludes root repo c0).1 c0)
        (repo, e.revision, e.relPath) = some (oracle e.relPath) :=
      promoteAll_lookup_self repo oracle _ c0 (mkPlanItem root repo e) hi
        (planned_nodup man includes excludes root repo c0 hnd)
    simp [cacheHit, lookup, hl2, hhon e he]

theorem plan_skips_skipped (man : List FileManifestEntry) (includes excludes : List String)
    (root repo : String) (c : Cache) :
    networkTransfers (plan man includes excludes root repo c).2 = 0 ∧
    ∀ r ∈ (plan man includes excludes root repo c).2,
      r.status = TransferStatus.skipped := by
  constructor
  · simp only [networkTransfers, plan]
    rw [List.filter_eq_nil_iff.mpr, List.length_nil]
    intro r hr
    rcases List.mem_map.mp hr with ⟨e, he, rfl⟩
    simp [mkSkipResult]
  · intro r hr
    rcases List.mem_map.mp hr with ⟨e, he, rfl⟩
    rfl

/-- Claim C5: running the full pipeline twice with an identical request and
no intervening cache mutation performs zero network file transfers on the
second run — the second plan is empty and every item of the second run
resolves as a cache hit, an immediate Skipped result.  The first run starts
from a fresh temp area and a network whose content matches the manifest's
checksums, so that its transfers succeed and populate the cache. -/
theorem hfd_C5 (remote : RemoteRepo) (oracle : String → List Nat) (n : Nat)
    (req : Request) (man : List FileManifestEntry) (c0 : Cache)
    (hres : resolve remote req.token = Except.ok man)
    (hhon : ∀ e ∈ man, chk (oracle e.relPath) = e.checksum) :
    (plan man req.includes req.excludes req.cacheRoot req.repoId
        (runPipeline remote oracle (n + 1) req [] c0).2.2).1 = [] ∧
    ∀ res2,
      (runPipeline remote oracle (n + 1) req
          (runPipeline remote oracle (n + 1) req [] c0).2.1
          (runPipeline remote oracle (n + 1) req [] c0).2.2).1 = Except.ok res2 →
      networkTransfers res2.1 = 0 ∧
      ∀ r ∈ res2.1, r.status = TransferStatus.skipped := by
  obtain ⟨ht1, hc1⟩ := runPipeline_fresh remote oracle n req man c0 hres hhon
  have hnd := resolve_ok_nodup remote req.token man hres
  have hhit := plan_after_promote oracle man req.includes req.excludes
    req.cacheRoot req.repoId c0 hnd hhon
  set cbig := promoteAll req.repoId oracle
    (plan man req.includes req.excludes req.cacheRoot req.repoId c0).1 c0 with hcbig
  have hfil : ∀ a, a ∈ man →
      ¬ ((matchesPath a.relPath req.includes req.excludes &&
          !cacheHit cbig req.repoId a) = true) := by
    intro a ha hcond
    rw [Bool.and_eq_true, Bool.not_eq_true'] at hcond
    rw [hhit a ha hcond.1] at hcond
    cases hcond.2
  have hplanempty : (plan man req.includes req.excludes req.cacheRoot req.repoId
      cbig).1 = [] := by
    simp only [plan]
    rw [List.filter_eq_nil_iff.mpr hfil, List.map_nil]
  refine ⟨by rw [hc1]; exact hplanempty, ?_⟩
  intro res2 hres2
  rw [ht1, hc1] at hres2
  simp only [runPipeline, hres, hplanempty, execute, List.append_nil,
    Except.ok.injEq] at hres2
  obtain ⟨hskip0, hskipall⟩ := plan_skips_skipped man req.includes req.excludes
    req.cacheRoot req.repoId cbig
  subst hres2
  exact ⟨hskip0, hskipall⟩

/-- Claim C5 witness: the idempotence conclusion applied to a concrete
single-file repository whose network content matches its checksum. -/
theorem hfd_C5_witness :
    (plan [c5Entry] c5Request.includes c5Request.excludes c5Request.cacheRoot
        c5Request.repoId (runPipeline c5Remote c5Oracle 3 c5Request [] []).2.2).1 = [] :=
  (hfd_C5 c5Remote c5Oracle 2 c5Request [c5Entry] [] rfl (by decide)).1

end Hfd
